import Mathlib

/-
Verification of the per-user photo-capture session state machine of the
PricePal MentraOS app (src/src/index.ts, class ExampleMentraOSApp).

The embedding models the mutable per-user maps of the class
(photos, latestPhotoTimestamp, isStreamingPhotos, nextPhotoTime, sessions)
as functions from the user identifier, and the event handlers
(onSession initialisation, the onButtonPress closure, the setInterval tick
closure, onStop, cachePhoto, and the completion of analyzePhotoWithGemini)
as pure state transformers.  External collaborator calls
(session.camera.requestPhoto, audio playback, the Gemini call) are modelled
as oracles carried on the events: a capture either succeeds with photo data
and a completion time (the value Date.now() reads when the handler resumes
after the await) or fails (the promise rejects and the catch block runs).
Collaborator calls with no effect on the modelled state (showTextWall,
audio.speak, speakAnalysis, console logging, the express routes, which only
read state) are omitted.  The unused pendingAudioUrls map is omitted.
-/

namespace PricePal

/-- Mirror of the StoredPhoto interface of src/src/index.ts.  The
geminiAnalysis field models the property written later via
`(photo as any).geminiAnalysis = ...`; it is absent (`none`) when the
object is created in cachePhoto. -/
structure StoredPhoto where
  requestId : String
  buffer : List Nat
  timestamp : Nat
  userId : String
  mimeType : String
  filename : String
  size : Nat
  geminiAnalysis : Option String := none
  deriving Repr, DecidableEq

/-- The fields of the PhotoData object returned by
session.camera.requestPhoto that cachePhoto copies. -/
structure PhotoData where
  requestId : String
  buffer : List Nat
  timestamp : Nat
  mimeType : String
  filename : String
  size : Nat
  deriving Repr, DecidableEq

/-- Result of an awaited session.camera.requestPhoto call: success carries
the PhotoData together with the time at which the handler resumes after the
call (the value a Date.now() call reads there); failure means the promise
rejected and control jumps to the catch block. -/
inductive CaptureOutcome where
  | success (pd : PhotoData) (doneTime : Nat)
  | failure
  deriving Repr, DecidableEq

/-- The mutable per-user state of class ExampleMentraOSApp.  Each JS
Map<string, T> is a function String to Option T (absent key = none);
the sessions map is tracked only by key presence.  pendingAnalysis records
the analyzePhotoWithGemini invocations dispatched by cachePhoto that have
not completed yet, identified by (userId, index of the photo in the list),
the index standing for the JS object identity of the mutated photo. -/
structure AppState where
  photos : String → List StoredPhoto
  latestPhotoTimestamp : String → Option Nat
  isStreamingPhotos : String → Option Bool
  nextPhotoTime : String → Option Nat
  sessions : String → Bool
  pendingAnalysis : List (String × Nat)

/-- The state of the freshly constructed server: all maps empty. -/
def initState : AppState where
  photos := fun _ => []
  latestPhotoTimestamp := fun _ => none
  isStreamingPhotos := fun _ => none
  nextPhotoTime := fun _ => none
  sessions := fun _ => false
  pendingAnalysis := []

/-- JS truthiness of a possibly-absent boolean map entry
(undefined is falsy). -/
def optTruthy : Option Bool → Bool
  | none => false
  | some b => b

/-- The stored photo object cachePhoto builds from the PhotoData
(src/src/index.ts lines 172-180); no geminiAnalysis property yet. -/
def cachedPhoto (pd : PhotoData) (userId : String) : StoredPhoto :=
  { requestId := pd.requestId
    buffer := pd.buffer
    timestamp := pd.timestamp
    userId := userId
    mimeType := pd.mimeType
    filename := pd.filename
    size := pd.size }

/-- cachePhoto (src/src/index.ts lines 168-204): builds the StoredPhoto
(with no geminiAnalysis property yet), appends it to the photos list of the
user, updates latestPhotoTimestamp, and dispatches analyzePhotoWithGemini
for it (fire-and-forget), recorded here as a new pendingAnalysis entry. -/
def cachePhoto (pd : PhotoData) (userId : String) (s : AppState) : AppState :=
  let userPhotos := s.photos userId
  { s with
    photos := fun k => if k = userId then userPhotos ++ [cachedPhoto pd userId] else s.photos k
    latestPhotoTimestamp := fun k =>
      if k = userId then some pd.timestamp else s.latestPhotoTimestamp k
    pendingAnalysis := s.pendingAnalysis ++ [(userId, userPhotos.length)] }

/-- The state initialisation performed by onSession
(src/src/index.ts lines 63-67): store the session handle, set
isStreamingPhotos to false and nextPhotoTime to the current time. -/
def onSession (userId : String) (now : Nat) (s : AppState) : AppState :=
  { s with
    sessions := fun k => if k = userId then true else s.sessions k
    isStreamingPhotos := fun k => if k = userId then some false else s.isStreamingPhotos k
    nextPhotoTime := fun k => if k = userId then some now else s.nextPhotoTime k }

/-- onStop (src/src/index.ts lines 157-163): set isStreamingPhotos to
false, delete the nextPhotoTime entry, delete the session handle. -/
def onStop (userId : String) (s : AppState) : AppState :=
  { s with
    isStreamingPhotos := fun k => if k = userId then some false else s.isStreamingPhotos k
    nextPhotoTime := fun k => if k = userId then none else s.nextPhotoTime k
    sessions := fun k => if k = userId then false else s.sessions k }

/-- The onButtonPress closure (src/src/index.ts lines 73-111).  A long
press toggles isStreamingPhotos (JS `!currentStreaming`, where an absent
entry is falsy) and returns.  Any other press requests one photo: on
success the photo is cached, on failure the error is logged and swallowed.
The showTextWall and audio.speak calls mutate no modelled state. -/
def onButtonPress (userId : String) (pressType : String) (o : CaptureOutcome)
    (s : AppState) : AppState :=
  if pressType = "long" then
    let currentStreaming := s.isStreamingPhotos userId
    { s with
      isStreamingPhotos := fun k =>
        if k = userId then some (!(optTruthy currentStreaming)) else s.isStreamingPhotos k }
  else
    match o with
    | .success pd _ => cachePhoto pd userId s
    | .failure => s

/-- Guard of the setInterval tick closure (src/src/index.ts line 119):
`isStreaming && currentTime > nextPhotoTime`, where isStreaming is the
possibly-absent map entry (falsy when absent) and nextPhotoTime defaults
to 0 (`?? 0`, line 116). -/
def streamTickFires (s : AppState) (userId : String) (currentTime : Nat) : Bool :=
  optTruthy (s.isStreamingPhotos userId) &&
    decide ((s.nextPhotoTime userId).getD 0 < currentTime)

/-- The synchronous prefix of the firing tick body, up to the suspension
point of the requestPhoto call (src/src/index.ts line 123): set
nextPhotoTime to currentTime + 30000 as a fallback, before the capture
call is issued. -/
def streamTickPrepare (s : AppState) (userId : String) (currentTime : Nat) : AppState :=
  { s with
    nextPhotoTime := fun k =>
      if k = userId then some (currentTime + 30000) else s.nextPhotoTime k }

/-- The continuation of the tick body after the requestPhoto call resolves
(src/src/index.ts lines 128-152): on success set nextPhotoTime to
Date.now() (line 146, the completion time) and cache the photo (line 149);
on failure the catch block only logs, mutating nothing. -/
def streamTickComplete (userId : String) (o : CaptureOutcome) (s : AppState) : AppState :=
  match o with
  | .success pd doneTime =>
      cachePhoto pd userId
        { s with
          nextPhotoTime := fun k =>
            if k = userId then some doneTime else s.nextPhotoTime k }
  | .failure => s

/-- One invocation of the setInterval tick closure
(src/src/index.ts lines 114-154): no-op unless the guard holds; when it
fires, advance nextPhotoTime first, then issue the capture call and run
the continuation on its outcome. -/
def streamTick (userId : String) (currentTime : Nat) (o : CaptureOutcome)
    (s : AppState) : AppState :=
  if streamTickFires s userId currentTime then
    streamTickComplete userId o (streamTickPrepare s userId currentTime)
  else s

/-- Replace the geminiAnalysis property of the photo at index i, if such a
photo exists (it always does when the completion runs: the index was taken
at append time and the list is append-only). -/
def setAnalysisAt (l : List StoredPhoto) (i : Nat) (r : String) : List StoredPhoto :=
  match l[i]? with
  | some ph => l.set i { ph with geminiAnalysis := some r }
  | none => l

/-- Completion of an analyzePhotoWithGemini invocation
(src/src/index.ts lines 209-271): both the success branch (line 260) and
the catch branch (line 269) write the geminiAnalysis property of the
captured photo exactly once; r is the analysis text or the error string.
The pendingAnalysis guard reflects that each dispatched invocation
completes exactly once; a completion that was never dispatched cannot
occur and is a no-op here. -/
def analyzeComplete (userId : String) (i : Nat) (r : String) (s : AppState) : AppState :=
  if (userId, i) ∈ s.pendingAnalysis then
    { s with
      photos := fun k => if k = userId then setAnalysisAt (s.photos userId) i r else s.photos k
      pendingAnalysis := s.pendingAnalysis.erase (userId, i) }
  else s

/-- The events the state machine reacts to, each carrying the responses of
the external collaborators it awaits. -/
inductive Event where
  | sessionStart (userId : String) (now : Nat)
  | sessionStop (userId : String)
  | buttonPress (userId : String) (pressType : String) (outcome : CaptureOutcome)
  | tick (userId : String) (now : Nat) (outcome : CaptureOutcome)
  | analysisDone (userId : String) (idx : Nat) (result : String)
  deriving Repr, DecidableEq

/-- Dispatch one event to its handler. -/
def step (e : Event) (s : AppState) : AppState :=
  match e with
  | .sessionStart u now => onSession u now s
  | .sessionStop u => onStop u s
  | .buttonPress u pt o => onButtonPress u pt o s
  | .tick u now o => streamTick u now o s
  | .analysisDone u i r => analyzeComplete u i r s

/-- Run a list of events from a given state. -/
def runFrom (s : AppState) (es : List Event) : AppState :=
  es.foldl (fun st e => step e st) s

/-- Run a list of events from the freshly constructed server. -/
def run (es : List Event) : AppState :=
  runFrom initState es

/-- Number of session.camera.requestPhoto calls the given event issues in
the given state: one for every non-long button press (lines 89), one for a
firing tick (line 128), zero otherwise. -/
def captureAttempts (s : AppState) : Event → Nat
  | .buttonPress _ pt _ => if pt = "long" then 0 else 1
  | .tick u now _ => if streamTickFires s u now then 1 else 0
  | _ => 0

/-- Total number of capture calls issued while running a list of events. -/
def runAttempts (s : AppState) : List Event → Nat
  | [] => 0
  | e :: es => captureAttempts s e + runAttempts (step e s) es

/-- The geminiAnalysis property of the photo at index i of the list of the
user: none when no such photo exists, some a when the photo exists and its
analysis property is a. -/
def analysisAt (s : AppState) (u : String) (i : Nat) : Option (Option String) :=
  ((s.photos u)[i]?).map (fun ph => ph.geminiAnalysis)

/-- Events that can run while a tick-triggered capture for user u is in
flight without disturbing the fallback nextPhotoTime value: any event of
another user, any button press or analysis completion, and ticks for u
whose time has not passed the fallback deadline.  Session stop or restart
of u itself would rewrite the entry and is excluded. -/
def inFlightBenign (u : String) (deadline : Nat) : Event → Bool
  | .tick u2 t _ => if u2 = u then decide (t ≤ deadline) else true
  | .sessionStart u2 _ => decide (u2 ≠ u)
  | .sessionStop u2 => decide (u2 ≠ u)
  | _ => true

/-! Frame and lookup lemmas for the individual handlers. -/

lemma cachePhoto_isStreamingPhotos (pd : PhotoData) (u : String) (s : AppState) :
    (cachePhoto pd u s).isStreamingPhotos = s.isStreamingPhotos := rfl

lemma cachePhoto_nextPhotoTime (pd : PhotoData) (u : String) (s : AppState) :
    (cachePhoto pd u s).nextPhotoTime = s.nextPhotoTime := rfl

lemma cachePhoto_photos (pd : PhotoData) (u : String) (s : AppState) (k : String) :
    (cachePhoto pd u s).photos k =
      if k = u then s.photos u ++ [cachedPhoto pd u] else s.photos k := rfl

lemma cachePhoto_pendingAnalysis (pd : PhotoData) (u : String) (s : AppState) :
    (cachePhoto pd u s).pendingAnalysis =
      s.pendingAnalysis ++ [(u, (s.photos u).length)] := rfl

lemma onButtonPress_isStreamingPhotos_of_ne (u pt : String) (o : CaptureOutcome)
    (s : AppState) (h : pt ≠ "long") :
    (onButtonPress u pt o s).isStreamingPhotos = s.isStreamingPhotos := by
  unfold onButtonPress
  rw [if_neg h]
  cases o <;> rfl

lemma onButtonPress_nextPhotoTime (u pt : String) (o : CaptureOutcome) (s : AppState) :
    (onButtonPress u pt o s).nextPhotoTime = s.nextPhotoTime := by
  unfold onButtonPress
  split
  · rfl
  · cases o <;> rfl

lemma onButtonPress_photos (u pt : String) (o : CaptureOutcome) (s : AppState) :
    (onButtonPress u pt o s).photos = s.photos ∨
      ∃ pd, (onButtonPress u pt o s).photos = (cachePhoto pd u s).photos := by
  unfold onButtonPress
  split
  · exact Or.inl rfl
  · cases o with
    | success pd t => exact Or.inr ⟨pd, rfl⟩
    | failure => exact Or.inl rfl

lemma streamTickPrepare_nextPhotoTime_self (s : AppState) (u : String) (now : Nat) :
    (streamTickPrepare s u now).nextPhotoTime u = some (now + 30000) := by
  simp [streamTickPrepare]

lemma streamTick_of_fires (u : String) (now : Nat) (o : CaptureOutcome) (s : AppState)
    (h : streamTickFires s u now = true) :
    streamTick u now o s = streamTickComplete u o (streamTickPrepare s u now) := by
  unfold streamTick
  rw [h]
  rfl

lemma streamTick_of_not_fires (u : String) (now : Nat) (o : CaptureOutcome) (s : AppState)
    (h : streamTickFires s u now = false) :
    streamTick u now o s = s := by
  unfold streamTick
  rw [h]
  rfl

lemma streamTick_isStreamingPhotos (u : String) (now : Nat) (o : CaptureOutcome)
    (s : AppState) :
    (streamTick u now o s).isStreamingPhotos = s.isStreamingPhotos := by
  unfold streamTick streamTickComplete streamTickPrepare
  split
  · cases o <;> rfl
  · rfl

lemma analyzeComplete_isStreamingPhotos (u : String) (i : Nat) (r : String) (s : AppState) :
    (analyzeComplete u i r s).isStreamingPhotos = s.isStreamingPhotos := by
  unfold analyzeComplete
  split <;> rfl

lemma analyzeComplete_nextPhotoTime (u : String) (i : Nat) (r : String) (s : AppState) :
    (analyzeComplete u i r s).nextPhotoTime = s.nextPhotoTime := by
  unfold analyzeComplete
  split <;> rfl

/-- A tick whose guard does not hold leaves the state untouched. -/
lemma tick_noop_of_not_streaming (u : String) (now : Nat) (o : CaptureOutcome)
    (s : AppState) (h : s.isStreamingPhotos u = some false) :
    step (.tick u now o) s = s := by
  have hf : streamTickFires s u now = false := by
    simp [streamTickFires, h, optTruthy]
  exact streamTick_of_not_fires u now o s hf

/-- A benign event preserves a present nextPhotoTime entry of user u. -/
lemma step_preserves_nextPhotoTime (u : String) (d : Nat) (e : Event) (s : AppState)
    (hd : s.nextPhotoTime u = some d) (hb : inFlightBenign u d e = true) :
    (step e s).nextPhotoTime u = some d := by
  cases e with
  | sessionStart u2 now =>
    have hne : u2 ≠ u := by simpa [inFlightBenign] using hb
    have hne2 : ¬(u = u2) := fun h => hne h.symm
    simpa [step, onSession, hne2] using hd
  | sessionStop u2 =>
    have hne : u2 ≠ u := by simpa [inFlightBenign] using hb
    have hne2 : ¬(u = u2) := fun h => hne h.symm
    simpa [step, onStop, hne2] using hd
  | buttonPress u2 pt o =>
    rw [step, onButtonPress_nextPhotoTime]
    exact hd
  | tick u2 t o =>
    by_cases hu : u2 = u
    · subst hu
      have ht : t ≤ d := by simpa [inFlightBenign] using hb
      have hf : streamTickFires s u2 t = false := by
        simp [streamTickFires, hd, Nat.not_lt.mpr ht]
      rw [step, streamTick_of_not_fires _ _ _ _ hf]
      exact hd
    · have hu2 : ¬(u = u2) := fun h => hu h.symm
      rw [step]
      unfold streamTick streamTickComplete streamTickPrepare
      split
      · cases o with
        | success pd dt =>
          simpa [cachePhoto, hu2] using hd
        | failure =>
          simpa [hu2] using hd
      · exact hd
  | analysisDone u2 i r =>
    rw [step, analyzeComplete_nextPhotoTime]
    exact hd

/-- A run of benign events preserves a present nextPhotoTime entry. -/
lemma runFrom_preserves_nextPhotoTime (u : String) (d : Nat) (es : List Event)
    (s : AppState) (hd : s.nextPhotoTime u = some d)
    (hb : ∀ e ∈ es, inFlightBenign u d e = true) :
    (runFrom s es).nextPhotoTime u = some d := by
  induction es generalizing s with
  | nil => exact hd
  | cons e es ih =>
    exact ih (step e s)
      (step_preserves_nextPhotoTime u d e s hd (hb e (List.mem_cons_self e es)))
      (fun e2 he2 => hb e2 (List.mem_cons_of_mem e he2))

/-! Invariant tying the pendingAnalysis entries to the photo lists: pending
entries are pairwise distinct and each one points at an existing photo
whose geminiAnalysis property is still absent. -/

def Inv (s : AppState) : Prop :=
  s.pendingAnalysis.Nodup ∧
  ∀ p ∈ s.pendingAnalysis,
    ∃ ph, (s.photos p.1)[p.2]? = some ph ∧ ph.geminiAnalysis = none

lemma inv_initState : Inv initState := by
  refine ⟨List.nodup_nil, ?_⟩
  intro p hp
  simp [initState] at hp

lemma setAnalysisAt_getElem?_ne (l : List StoredPhoto) (i j : Nat) (r : String)
    (h : i ≠ j) : (setAnalysisAt l i r)[j]? = l[j]? := by
  unfold setAnalysisAt
  cases hl : l[i]? with
  | none => rfl
  | some ph => exact List.getElem?_set_ne h

lemma setAnalysisAt_getElem?_self (l : List StoredPhoto) (i : Nat) (r : String)
    (ph : StoredPhoto) (h : l[i]? = some ph) :
    (setAnalysisAt l i r)[i]? = some { ph with geminiAnalysis := some r } := by
  unfold setAnalysisAt
  rw [h]
  exact List.getElem?_set_eq_of_lt _ (List.getElem?_eq_some.mp h).1

lemma setAnalysisAt_getElem?_none (l : List StoredPhoto) (i j : Nat) (r : String)
    (h : l[j]? = none) : (setAnalysisAt l i r)[j]? = none := by
  unfold setAnalysisAt
  cases hl : l[i]? with
  | none => exact h
  | some ph =>
    rw [List.getElem?_eq_none]
    rw [List.length_set]
    exact List.getElem?_eq_none_iff.mp h

lemma inv_cachePhoto (pd : PhotoData) (u : String) (s : AppState) (h : Inv s) :
    Inv (cachePhoto pd u s) := by
  obtain ⟨hnd, hmem⟩ := h
  constructor
  · rw [cachePhoto_pendingAnalysis]
    refine hnd.append (List.nodup_singleton _) ?_
    intro p hp hp1
    rw [List.mem_singleton] at hp1
    subst hp1
    obtain ⟨ph, hph, _⟩ := hmem _ hp
    rw [List.getElem?_eq_none (Nat.le_refl _)] at hph
    exact Option.noConfusion hph
  · intro p hp
    rw [cachePhoto_pendingAnalysis, List.mem_append] at hp
    cases hp with
    | inl hp =>
      obtain ⟨ph, hph, hnone⟩ := hmem p hp
      refine ⟨ph, ?_, hnone⟩
      rw [cachePhoto_photos]
      by_cases hpu : p.1 = u
      · rw [if_pos hpu]
        rw [hpu] at hph
        rw [List.getElem?_append_left (List.getElem?_eq_some.mp hph).1]
        exact hph
      · rw [if_neg hpu]
        exact hph
    | inr hp =>
      rw [List.mem_singleton] at hp
      subst hp
      refine ⟨cachedPhoto pd u, ?_, rfl⟩
      rw [cachePhoto_photos, if_pos rfl]
      exact List.getElem?_concat_length _ _

lemma inv_analyzeComplete (u : String) (i : Nat) (r : String) (s : AppState)
    (h : Inv s) : Inv (analyzeComplete u i r s) := by
  obtain ⟨hnd, hmem⟩ := h
  unfold analyzeComplete
  split
  case isTrue hin =>
    constructor
    · exact hnd.erase _
    · intro p hp
      obtain ⟨hne, hpmem⟩ := hnd.mem_erase_iff.mp hp
      obtain ⟨ph, hph, hnone⟩ := hmem p hpmem
      refine ⟨ph, ?_, hnone⟩
      by_cases hpu : p.1 = u
      · have hij : i ≠ p.2 := by
          intro hh
          exact hne (Prod.ext hpu hh.symm)
        show (if p.1 = u then setAnalysisAt (s.photos u) i r else s.photos p.1)[p.2]? = _
        rw [if_pos hpu, setAnalysisAt_getElem?_ne _ _ _ _ hij]
        rw [hpu] at hph
        exact hph
      · show (if p.1 = u then setAnalysisAt (s.photos u) i r else s.photos p.1)[p.2]? = _
        rw [if_neg hpu]
        exact hph
  case isFalse => exact ⟨hnd, hmem⟩

lemma inv_step (e : Event) (s : AppState) (h : Inv s) : Inv (step e s) := by
  cases e with
  | sessionStart u now => exact h
  | sessionStop u => exact h
  | buttonPress u pt o =>
    rw [step]
    unfold onButtonPress
    split
    · exact h
    · cases o with
      | success pd t => exact inv_cachePhoto pd u s h
      | failure => exact h
  | tick u now o =>
    rw [step]
    unfold streamTick
    split
    · cases o with
      | success pd dt =>
        exact inv_cachePhoto pd u _ h
      | failure => exact h
    · exact h
  | analysisDone u i r => exact inv_analyzeComplete u i r s h

lemma inv_runFrom (es : List Event) (s : AppState) (h : Inv s) :
    Inv (runFrom s es) := by
  induction es generalizing s with
  | nil => exact h
  | cons e es ih => exact ih (step e s) (inv_step e s h)

lemma inv_run (es : List Event) : Inv (run es) :=
  inv_runFrom es initState inv_initState

/-! Decomposition lemmas exposing each handler branch as an equation. -/

lemma onButtonPress_long (u pt : String) (o : CaptureOutcome) (s : AppState)
    (h : pt = "long") :
    onButtonPress u pt o s =
      { s with isStreamingPhotos := fun k =>
          if k = u then some (!(optTruthy (s.isStreamingPhotos u)))
          else s.isStreamingPhotos k } := by
  unfold onButtonPress
  rw [if_pos h]

lemma onButtonPress_short_success (u pt : String) (pd : PhotoData) (t : Nat)
    (s : AppState) (h : ¬pt = "long") :
    onButtonPress u pt (.success pd t) s = cachePhoto pd u s := by
  unfold onButtonPress
  rw [if_neg h]

lemma onButtonPress_short_failure (u pt : String) (s : AppState)
    (h : ¬pt = "long") : onButtonPress u pt .failure s = s := by
  unfold onButtonPress
  rw [if_neg h]

lemma streamTickComplete_success (u : String) (pd : PhotoData) (dt : Nat)
    (s : AppState) :
    streamTickComplete u (.success pd dt) s =
      cachePhoto pd u
        { s with nextPhotoTime := fun k =>
            if k = u then some dt else s.nextPhotoTime k } := rfl

lemma streamTickComplete_failure (u : String) (s : AppState) :
    streamTickComplete u .failure s = s := rfl

lemma analyzeComplete_of_mem (u : String) (i : Nat) (r : String) (s : AppState)
    (h : (u, i) ∈ s.pendingAnalysis) :
    analyzeComplete u i r s =
      { s with
        photos := fun k =>
          if k = u then setAnalysisAt (s.photos u) i r else s.photos k
        pendingAnalysis := s.pendingAnalysis.erase (u, i) } := by
  unfold analyzeComplete
  rw [if_pos h]

lemma analyzeComplete_of_not_mem (u : String) (i : Nat) (r : String) (s : AppState)
    (h : (u, i) ∉ s.pendingAnalysis) : analyzeComplete u i r s = s := by
  unfold analyzeComplete
  rw [if_neg h]

lemma analyzeComplete_photos_lookup (u2 : String) (j : Nat) (r : String)
    (s : AppState) (u : String) (h : (u2, j) ∈ s.pendingAnalysis) :
    (analyzeComplete u2 j r s).photos u =
      if u = u2 then setAnalysisAt (s.photos u2) j r else s.photos u := by
  rw [analyzeComplete_of_mem u2 j r s h]

/-! A master lemma: every event either leaves the photo list of a user
unchanged, appends exactly one photo at its end, or (analysis completion
only) rewrites the geminiAnalysis property of one existing photo in
place. -/

lemma step_photos_cases (e : Event) (s : AppState) (u : String) :
    (step e s).photos u = s.photos u ∨
    (∃ pd, (step e s).photos u = s.photos u ++ [cachedPhoto pd u]) ∨
    (∃ j r, (u, j) ∈ s.pendingAnalysis ∧ e = .analysisDone u j r ∧
      (step e s).photos u = setAnalysisAt (s.photos u) j r) := by
  cases e with
  | sessionStart u2 now => exact Or.inl rfl
  | sessionStop u2 => exact Or.inl rfl
  | buttonPress u2 pt o =>
    by_cases hpt : pt = "long"
    · refine Or.inl ?_
      rw [step, onButtonPress_long u2 pt o s hpt]
    · cases o with
      | success pd t =>
        by_cases hu : u = u2
        · refine Or.inr (Or.inl ⟨pd, ?_⟩)
          rw [step, onButtonPress_short_success u2 pt pd t s hpt, cachePhoto_photos,
            if_pos hu, ← hu]
        · refine Or.inl ?_
          rw [step, onButtonPress_short_success u2 pt pd t s hpt, cachePhoto_photos,
            if_neg hu]
      | failure =>
        refine Or.inl ?_
        rw [step, onButtonPress_short_failure u2 pt s hpt]
  | tick u2 t o =>
    by_cases hf : streamTickFires s u2 t = true
    · cases o with
      | success pd dt =>
        by_cases hu : u = u2
        · refine Or.inr (Or.inl ⟨pd, ?_⟩)
          rw [step, streamTick_of_fires u2 t _ s hf, streamTickComplete_success,
            cachePhoto_photos, if_pos hu, ← hu]
          rfl
        · refine Or.inl ?_
          rw [step, streamTick_of_fires u2 t _ s hf, streamTickComplete_success,
            cachePhoto_photos, if_neg hu]
          rfl
      | failure =>
        refine Or.inl ?_
        rw [step, streamTick_of_fires u2 t _ s hf, streamTickComplete_failure]
        rfl
    · refine Or.inl ?_
      have hf2 : streamTickFires s u2 t = false := by
        simpa using hf
      rw [step, streamTick_of_not_fires u2 t o s hf2]
  | analysisDone u2 j r =>
    by_cases hin : (u2, j) ∈ s.pendingAnalysis
    · by_cases hu : u = u2
      · refine Or.inr (Or.inr ⟨j, r, ?_, by rw [hu], ?_⟩)
        · rw [hu]
          exact hin
        · rw [step, analyzeComplete_photos_lookup u2 j r s u hin, if_pos hu, ← hu]
      · refine Or.inl ?_
        rw [step, analyzeComplete_photos_lookup u2 j r s u hin, if_neg hu]
    · refine Or.inl ?_
      rw [step, analyzeComplete_of_not_mem u2 j r s hin]

/-! Per-step lemmas about the geminiAnalysis property of a stored photo. -/

lemma step_analysisAt_some (e : Event) (s : AppState) (u : String) (i : Nat)
    (x : String) (hInv : Inv s) (hx : analysisAt s u i = some (some x)) :
    analysisAt (step e s) u i = some (some x) := by
  obtain ⟨ph, hph, hphx⟩ := Option.map_eq_some'.mp hx
  have hpend : (u, i) ∉ s.pendingAnalysis := by
    intro hmem
    obtain ⟨ph2, hph2, hnone⟩ := hInv.2 _ hmem
    rw [hph] at hph2
    cases hph2
    rw [hphx] at hnone
    exact Option.noConfusion hnone
  rcases step_photos_cases e s u with hsame | ⟨pd, happ⟩ | ⟨j, r, hjin, he, hset⟩
  · unfold analysisAt
    rw [hsame]
    exact hx
  · unfold analysisAt
    rw [happ, List.getElem?_append_left (List.getElem?_eq_some.mp hph).1, hph]
    simp [hphx]
  · have hij : j ≠ i := fun hh => hpend (hh ▸ hjin)
    unfold analysisAt
    rw [hset, setAnalysisAt_getElem?_ne _ _ _ _ hij, hph]
    simp [hphx]

lemma step_analysisAt_new (e : Event) (s : AppState) (u : String) (i : Nat)
    (a : Option String) (h0 : analysisAt s u i = none)
    (h1 : analysisAt (step e s) u i = some a) : a = none := by
  have hp0 : (s.photos u)[i]? = none := by
    unfold analysisAt at h0
    exact Option.map_eq_none'.mp h0
  rcases step_photos_cases e s u with hsame | ⟨pd, happ⟩ | ⟨j, r, hjin, he, hset⟩
  · unfold analysisAt at h1
    rw [hsame, hp0] at h1
    exact Option.noConfusion h1
  · unfold analysisAt at h1
    have hle : (s.photos u).length ≤ i := List.getElem?_eq_none_iff.mp hp0
    rw [happ, List.getElem?_append_right hle] at h1
    cases hk : i - (s.photos u).length with
    | zero =>
      rw [hk] at h1
      simp [cachedPhoto] at h1
      exact h1.symm
    | succ n =>
      rw [hk] at h1
      simp at h1
  · unfold analysisAt at h1
    rw [hset, setAnalysisAt_getElem?_none _ _ _ _ hp0] at h1
    exact Option.noConfusion h1

lemma step_analysisAt_none_cases (e : Event) (s : AppState) (u : String) (i : Nat)
    (h0 : analysisAt s u i = some none) :
    analysisAt (step e s) u i = some none ∨
      ∃ r, e = .analysisDone u i r ∧ analysisAt (step e s) u i = some (some r) := by
  obtain ⟨ph, hph, hnone⟩ := Option.map_eq_some'.mp h0
  rcases step_photos_cases e s u with hsame | ⟨pd, happ⟩ | ⟨j, r, hjin, he, hset⟩
  · refine Or.inl ?_
    unfold analysisAt
    rw [hsame]
    exact h0
  · refine Or.inl ?_
    unfold analysisAt
    rw [happ, List.getElem?_append_left (List.getElem?_eq_some.mp hph).1, hph]
    simp [hnone]
  · by_cases hij : j = i
    · subst hij
      refine Or.inr ⟨r, he, ?_⟩
      unfold analysisAt
      rw [hset, setAnalysisAt_getElem?_self _ _ _ _ hph]
      rfl
    · refine Or.inl ?_
      unfold analysisAt
      rw [hset, setAnalysisAt_getElem?_ne _ _ _ _ hij, hph]
      simp [hnone]

/-! Remaining helper lemmas. -/

lemma setAnalysisAt_of_none (l : List StoredPhoto) (i : Nat) (r : String)
    (h : l[i]? = none) : setAnalysisAt l i r = l := by
  unfold setAnalysisAt
  rw [h]

lemma setAnalysisAt_of_some (l : List StoredPhoto) (i : Nat) (r : String)
    (ph : StoredPhoto) (h : l[i]? = some ph) :
    setAnalysisAt l i r = l.set i { ph with geminiAnalysis := some r } := by
  unfold setAnalysisAt
  rw [h]

lemma set_self_of_getElem? {α : Type} (l : List α) (i : Nat) (a : α)
    (h : l[i]? = some a) : l.set i a = l := by
  induction l generalizing i with
  | nil => exact Option.noConfusion h
  | cons b l ih =>
    cases i with
    | zero =>
      rw [List.getElem?_cons_zero] at h
      cases h
      rfl
    | succ n =>
      rw [List.getElem?_cons_succ] at h
      rw [List.set_cons_succ]
      rw [ih n h]

lemma setAnalysisAt_map_requestId (l : List StoredPhoto) (i : Nat) (r : String) :
    (setAnalysisAt l i r).map (fun ph => ph.requestId) =
      l.map (fun ph => ph.requestId) := by
  cases hl : l[i]? with
  | none => rw [setAnalysisAt_of_none l i r hl]
  | some ph =>
    rw [setAnalysisAt_of_some l i r ph hl, List.map_set]
    refine set_self_of_getElem? _ i _ ?_
    rw [List.getElem?_map, hl]
    rfl

lemma onButtonPress_long_isStreaming_self (u : String) (o : CaptureOutcome)
    (s : AppState) :
    (onButtonPress u "long" o s).isStreamingPhotos u =
      some (!(optTruthy (s.isStreamingPhotos u))) := by
  rw [onButtonPress_long u "long" o s rfl]
  simp

lemma runFrom_ticks_noop (s2 : AppState) (u : String)
    (h : s2.isStreamingPhotos u = some false)
    (ts : List (Nat × CaptureOutcome)) :
    runFrom s2 (ts.map (fun p => Event.tick u p.1 p.2)) = s2 := by
  induction ts with
  | nil => rfl
  | cons p ts ih =>
    show runFrom (step (.tick u p.1 p.2) s2) (ts.map (fun p => Event.tick u p.1 p.2)) = s2
    rw [tick_noop_of_not_streaming u p.1 p.2 s2 h]
    exact ih

/-! The claims. -/

/-- C1: whenever a tick fires for a user (the guard isStreaming true and
current time strictly past nextPhotoTime holds), the handler sets
nextPhotoTime to triggerTime + 30000 before the capture call is issued:
the tick equals the capture continuation applied to the prepared state,
the prepared state already carries the fallback value, and the fallback
value persists across any events running while the capture is in flight
(events of other users, button presses, analysis completions, and ticks
of this user up to the fallback deadline). -/
theorem c1_cooldown_advanced_before_capture
    (s : AppState) (u : String) (now : Nat) (o : CaptureOutcome)
    (h : streamTickFires s u now = true) :
    (streamTickPrepare s u now).nextPhotoTime u = some (now + 30000) ∧
    step (.tick u now o) s = streamTickComplete u o (streamTickPrepare s u now) ∧
    ∀ es : List Event, (∀ e ∈ es, inFlightBenign u (now + 30000) e = true) →
      (runFrom (streamTickPrepare s u now) es).nextPhotoTime u =
        some (now + 30000) := by
  refine ⟨streamTickPrepare_nextPhotoTime_self s u now,
    streamTick_of_fires u now o s h, ?_⟩
  intro es hb
  exact runFrom_preserves_nextPhotoTime u (now + 30000) es _
    (streamTickPrepare_nextPhotoTime_self s u now) hb

/-- C2: no tick-triggered capture is issued while the current time is at
most the nextPhotoTime entry of the user, and the tick is a no-op (state
unchanged, zero capture calls) unless isStreaming is truthy and the
current time is strictly greater than the nextPhotoTime entry
(defaulted to 0 when absent, as in the source). -/
theorem c2_no_capture_before_cooldown
    (s : AppState) (u : String) (now : Nat) (o : CaptureOutcome) :
    (∀ t, s.nextPhotoTime u = some t → now ≤ t →
      captureAttempts s (.tick u now o) = 0) ∧
    (¬(optTruthy (s.isStreamingPhotos u) = true ∧
        (s.nextPhotoTime u).getD 0 < now) →
      step (.tick u now o) s = s ∧ captureAttempts s (.tick u now o) = 0) := by
  constructor
  · intro t ht hle
    have hf : streamTickFires s u now = false := by
      simp [streamTickFires, ht, Nat.not_lt.mpr hle]
    simp [captureAttempts, hf]
  · intro hno
    have hf : streamTickFires s u now = false := by
      rw [streamTickFires]
      by_cases ha : optTruthy (s.isStreamingPhotos u) = true
      · have hc : ¬((s.nextPhotoTime u).getD 0 < now) := fun hc => hno ⟨ha, hc⟩
        simp [ha, hc]
      · rw [Bool.not_eq_true] at ha
        simp [ha]
    exact ⟨streamTick_of_not_fires u now o s hf, by simp [captureAttempts, hf]⟩

/-- C3: after a tick-triggered capture succeeds, the nextPhotoTime entry of
the user equals the completion time of the capture (the Date.now() value
read after the call resolves), not the fallback value, so the guard holds
again for any tick arriving strictly after that completion time. -/
theorem c3_success_resets_cooldown_to_completion
    (s : AppState) (u : String) (now : Nat) (pd : PhotoData) (dt : Nat)
    (h : streamTickFires s u now = true) :
    (step (.tick u now (.success pd dt)) s).nextPhotoTime u = some dt ∧
    ∀ t2, dt < t2 →
      streamTickFires (step (.tick u now (.success pd dt)) s) u t2 = true := by
  have hstep : step (.tick u now (.success pd dt)) s =
      streamTickComplete u (.success pd dt) (streamTickPrepare s u now) :=
    streamTick_of_fires u now _ s h
  have hnpt : (step (.tick u now (.success pd dt)) s).nextPhotoTime u = some dt := by
    rw [hstep, streamTickComplete_success, cachePhoto_nextPhotoTime]
    simp
  refine ⟨hnpt, ?_⟩
  intro t2 ht2
  have hiss : (step (.tick u now (.success pd dt)) s).isStreamingPhotos u =
      s.isStreamingPhotos u := by
    rw [hstep, streamTickComplete_success, cachePhoto_isStreamingPhotos]
    rfl
  have hs1 : optTruthy (s.isStreamingPhotos u) = true := by
    rw [streamTickFires, Bool.and_eq_true] at h
    exact h.1
  rw [streamTickFires, hnpt, hiss, hs1]
  simp [ht2]

/-- C4: after a tick-triggered capture fails, the state is exactly the
prepared state (the catch block mutates nothing), so the nextPhotoTime
entry still holds triggerTime + 30000, and no tick up to that deadline can
fire again for the user.  Failure is swallowed: the handler is total and
returns a state rather than propagating the error. -/
theorem c4_failure_keeps_backoff (s : AppState) (u : String) (now : Nat)
    (h : streamTickFires s u now = true) :
    step (.tick u now .failure) s = streamTickPrepare s u now ∧
    (step (.tick u now .failure) s).nextPhotoTime u = some (now + 30000) ∧
    ∀ t2, t2 ≤ now + 30000 →
      streamTickFires (step (.tick u now .failure) s) u t2 = false := by
  have hstep : step (.tick u now .failure) s = streamTickPrepare s u now := by
    rw [show step (.tick u now .failure) s = streamTick u now .failure s from rfl,
      streamTick_of_fires u now _ s h, streamTickComplete_failure]
  refine ⟨hstep, ?_, ?_⟩
  · rw [hstep]
    exact streamTickPrepare_nextPhotoTime_self s u now
  · intro t2 ht2
    rw [hstep, streamTickFires, streamTickPrepare_nextPhotoTime_self]
    simp [Nat.not_lt.mpr ht2]

/-- C5: a button press whose press type is not long issues exactly one
capture call, in every state; and the scenario long press, long press,
non-long press (no ticks in between) starting right after session start
leaves isStreaming false and issues exactly one capture in total. -/
theorem c5_short_press_always_one_capture :
    (∀ (s : AppState) (u pt : String) (o : CaptureOutcome), pt ≠ "long" →
      captureAttempts s (.buttonPress u pt o) = 1) ∧
    (∀ (s : AppState) (u : String) (t : Nat) (o1 o2 o3 : CaptureOutcome)
        (pt : String), pt ≠ "long" →
      (runFrom (step (.sessionStart u t) s)
        [.buttonPress u "long" o1, .buttonPress u "long" o2,
          .buttonPress u pt o3]).isStreamingPhotos u = some false ∧
      runAttempts (step (.sessionStart u t) s)
        [.buttonPress u "long" o1, .buttonPress u "long" o2,
          .buttonPress u pt o3] = 1) := by
  constructor
  · intro s u pt o hpt
    simp [captureAttempts, hpt]
  · intro s u t o1 o2 o3 pt hpt
    have h0 : (step (.sessionStart u t) s).isStreamingPhotos u = some false := by
      simp [step, onSession]
    have h1 : (step (.buttonPress u "long" o1)
        (step (.sessionStart u t) s)).isStreamingPhotos u = some true := by
      rw [show step (.buttonPress u "long" o1) (step (.sessionStart u t) s) =
          onButtonPress u "long" o1 (step (.sessionStart u t) s) from rfl,
        onButtonPress_long_isStreaming_self, h0]
      rfl
    have h2 : (step (.buttonPress u "long" o2) (step (.buttonPress u "long" o1)
        (step (.sessionStart u t) s))).isStreamingPhotos u = some false := by
      rw [show step (.buttonPress u "long" o2) (step (.buttonPress u "long" o1)
          (step (.sessionStart u t) s)) = onButtonPress u "long" o2
          (step (.buttonPress u "long" o1) (step (.sessionStart u t) s)) from rfl,
        onButtonPress_long_isStreaming_self, h1]
      rfl
    have h3 : (step (.buttonPress u pt o3) (step (.buttonPress u "long" o2)
        (step (.buttonPress u "long" o1)
          (step (.sessionStart u t) s)))).isStreamingPhotos u = some false := by
      rw [show (step (.buttonPress u pt o3) (step (.buttonPress u "long" o2)
          (step (.buttonPress u "long" o1)
            (step (.sessionStart u t) s)))).isStreamingPhotos =
          (step (.buttonPress u "long" o2) (step (.buttonPress u "long" o1)
            (step (.sessionStart u t) s))).isStreamingPhotos from
          onButtonPress_isStreamingPhotos_of_ne u pt o3 _ hpt]
      exact h2
    exact ⟨h3, by simp [runAttempts, captureAttempts, hpt]⟩

/-- C7: after session stop for user u, isStreaming holds false and the
nextPhotoTime entry is deleted, and every later sequence of tick
invocations for u (until a new session start would change the state) is a
no-op: the state is unchanged and no capture call is issued. -/
theorem c7_stop_disarms_ticks (s : AppState) (u : String)
    (ts : List (Nat × CaptureOutcome)) :
    (step (.sessionStop u) s).isStreamingPhotos u = some false ∧
    (step (.sessionStop u) s).nextPhotoTime u = none ∧
    runFrom (step (.sessionStop u) s)
      (ts.map (fun p => Event.tick u p.1 p.2)) = step (.sessionStop u) s ∧
    ∀ t o, captureAttempts (step (.sessionStop u) s) (.tick u t o) = 0 := by
  have h1 : (step (.sessionStop u) s).isStreamingPhotos u = some false := by
    simp [step, onStop]
  have hfires : ∀ t, streamTickFires (step (.sessionStop u) s) u t = false := by
    intro t
    simp [streamTickFires, h1, optTruthy]
  refine ⟨h1, by simp [step, onStop], runFrom_ticks_noop _ u h1 ts, ?_⟩
  intro t o
  simp [captureAttempts, hfires t]

/-- C9: each session-start, session-stop, button-press or tick event (with
any capture outcome, so capture success and failure are both covered)
either leaves the photo list of any user unchanged or appends exactly one
photo at its end; and under every event whatsoever — the analysis
completion included — the previous photo list is preserved as a prefix, by
requestId and in order: nothing is ever removed or reordered. -/
theorem c9_photos_append_only (s : AppState) (e : Event) (u : String) :
    ((∀ u2 i r, e ≠ .analysisDone u2 i r) →
      (step e s).photos u = s.photos u ∨
        ∃ p, (step e s).photos u = s.photos u ++ [p]) ∧
    ∃ tl, ((step e s).photos u).map (fun ph => ph.requestId) =
      (s.photos u).map (fun ph => ph.requestId) ++ tl := by
  rcases step_photos_cases e s u with hsame | ⟨pd, happ⟩ | ⟨j, r, hjin, he, hset⟩
  · exact ⟨fun _ => Or.inl hsame, [], by rw [hsame, List.append_nil]⟩
  · refine ⟨fun _ => Or.inr ⟨_, happ⟩, [(cachedPhoto pd u).requestId], ?_⟩
    rw [happ, List.map_append]
    rfl
  · refine ⟨fun hne => absurd he (hne u j r), [], ?_⟩
    rw [hset, setAnalysisAt_map_requestId, List.append_nil]

/-- C10: a button press whose press type is not long leaves the whole
isStreamingPhotos map and the whole nextPhotoTime map exactly as they
were, whether the capture succeeds or fails. -/
theorem c10_button_capture_preserves_cooldown_state
    (s : AppState) (u pt : String) (o : CaptureOutcome) (h : pt ≠ "long") :
    (step (.buttonPress u pt o) s).isStreamingPhotos = s.isStreamingPhotos ∧
    (step (.buttonPress u pt o) s).nextPhotoTime = s.nextPhotoTime :=
  ⟨onButtonPress_isStreamingPhotos_of_ne u pt o s h,
    onButtonPress_nextPhotoTime u pt o s⟩

/-- C8: over any reachable state of the system, the geminiAnalysis
property of a stored photo (a) is absent on any photo that appears in the
list where there was none before, (b) once present with some text is
preserved verbatim by every further event, and (c) while absent is either
left absent or set — only by an analysis completion for exactly that
photo — to that completion's text (the success analysis or the error
string). -/
theorem c8_analysis_written_once (es : List Event) (e : Event) (u : String)
    (i : Nat) :
    (∀ a, analysisAt (run es) u i = none →
      analysisAt (step e (run es)) u i = some a → a = none) ∧
    (∀ x, analysisAt (run es) u i = some (some x) →
      analysisAt (step e (run es)) u i = some (some x)) ∧
    (analysisAt (run es) u i = some none →
      analysisAt (step e (run es)) u i = some none ∨
        ∃ r, e = .analysisDone u i r ∧
          analysisAt (step e (run es)) u i = some (some r)) :=
  ⟨fun a h0 h1 => step_analysisAt_new e (run es) u i a h0 h1,
   fun x hx => step_analysisAt_some e (run es) u i x (inv_run es) hx,
   fun h0 => step_analysisAt_none_cases e (run es) u i h0⟩

/-- C6 counterexample: the claim says isStreamingPhotos is only ever
changed by a long button press, but the onStop handler sets it to false
unconditionally.  Concretely: after session start and one long press the
flag of user u1 is true, and the session stop event — not a long button
press — changes it to false. -/
theorem c6_counterexample :
    (step (.buttonPress "u1" "long" CaptureOutcome.failure)
      (step (.sessionStart "u1" 0) initState)).isStreamingPhotos "u1" =
        some true ∧
    (step (.sessionStop "u1")
      (step (.buttonPress "u1" "long" CaptureOutcome.failure)
        (step (.sessionStart "u1" 0) initState))).isStreamingPhotos "u1" =
        some false := by
  constructor
  · rfl
  · rfl

/-- C6 amended: isStreamingPhotos is false immediately after session
start; a long button press replaces it with the logical NOT of its current
value (with an absent entry read as false) and issues no capture call;
short presses, ticks and analysis completions never change it; besides the
long press, only the session lifecycle handlers change it, and both
session start and session stop reset it to false unconditionally. -/
theorem c6_streaming_toggle_amended
    (s : AppState) (u u2 : String) (now t i : Nat) (o : CaptureOutcome)
    (pt r : String) :
    (step (.sessionStart u now) s).isStreamingPhotos u = some false ∧
    (step (.buttonPress u "long" o) s).isStreamingPhotos u =
      some (!(optTruthy (s.isStreamingPhotos u))) ∧
    captureAttempts s (.buttonPress u "long" o) = 0 ∧
    (pt ≠ "long" →
      (step (.buttonPress u pt o) s).isStreamingPhotos u =
        s.isStreamingPhotos u) ∧
    (step (.tick u t o) s).isStreamingPhotos u = s.isStreamingPhotos u ∧
    (step (.analysisDone u2 i r) s).isStreamingPhotos u =
      s.isStreamingPhotos u ∧
    (step (.sessionStop u) s).isStreamingPhotos u = some false := by
  refine ⟨by simp [step, onSession], onButtonPress_long_isStreaming_self u o s,
    by simp [captureAttempts], ?_, ?_, ?_, by simp [step, onStop]⟩
  · intro hpt
    rw [show (step (.buttonPress u pt o) s).isStreamingPhotos =
        s.isStreamingPhotos from onButtonPress_isStreamingPhotos_of_ne u pt o s hpt]
  · rw [show (step (.tick u t o) s).isStreamingPhotos = s.isStreamingPhotos from
      streamTick_isStreamingPhotos u t o s]
  · rw [show (step (.analysisDone u2 i r) s).isStreamingPhotos =
      s.isStreamingPhotos from analyzeComplete_isStreamingPhotos u2 i r s]

/-! Concrete example states and traces used by the witnesses. -/

/-- Example photo data returned by a capture. -/
def pdEx : PhotoData :=
  { requestId := "r1", buffer := [7, 7], timestamp := 7,
    mimeType := "image/jpeg", filename := "photo.jpg", size := 2 }

/-- State right after session start of user u1 at time 0. -/
def exampleStart : AppState := step (.sessionStart "u1" 0) initState

/-- exampleStart after one long press: streaming armed. -/
def exampleStreaming : AppState :=
  step (.buttonPress "u1" "long" CaptureOutcome.failure) exampleStart

/-- Trace reaching a state with one photo whose analysis is still absent. -/
def esEx : List Event :=
  [.sessionStart "u1" 0, .buttonPress "u1" "short" (.success pdEx 2)]

/-- esEx extended by the analysis completion of that photo. -/
def esEx2 : List Event := esEx ++ [.analysisDone "u1" 0 "A"]

theorem c1_witness :
    (streamTickPrepare exampleStreaming "u1" 1).nextPhotoTime "u1" =
      some 30001 ∧
    (runFrom (streamTickPrepare exampleStreaming "u1" 1)
      [Event.tick "u1" 400 CaptureOutcome.failure,
        Event.buttonPress "u1" "short" (.success pdEx 9)]).nextPhotoTime "u1" =
      some 30001 :=
  ⟨(c1_cooldown_advanced_before_capture exampleStreaming "u1" 1
      CaptureOutcome.failure (by decide)).1,
   (c1_cooldown_advanced_before_capture exampleStreaming "u1" 1
      CaptureOutcome.failure (by decide)).2.2
      [Event.tick "u1" 400 CaptureOutcome.failure,
        Event.buttonPress "u1" "short" (.success pdEx 9)] (by decide)⟩

theorem c2_witness :
    captureAttempts exampleStart (.tick "u1" 0 CaptureOutcome.failure) = 0 ∧
    step (.tick "u1" 0 CaptureOutcome.failure) exampleStart = exampleStart :=
  ⟨(c2_no_capture_before_cooldown exampleStart "u1" 0
      CaptureOutcome.failure).1 0 (by decide) (by decide),
   ((c2_no_capture_before_cooldown exampleStart "u1" 0
      CaptureOutcome.failure).2 (by decide)).1⟩

theorem c3_witness :
    (step (.tick "u1" 1 (.success pdEx 2)) exampleStreaming).nextPhotoTime
      "u1" = some 2 ∧
    streamTickFires (step (.tick "u1" 1 (.success pdEx 2)) exampleStreaming)
      "u1" 3 = true :=
  ⟨(c3_success_resets_cooldown_to_completion exampleStreaming "u1" 1 pdEx 2
      (by decide)).1,
   (c3_success_resets_cooldown_to_completion exampleStreaming "u1" 1 pdEx 2
      (by decide)).2 3 (by decide)⟩

theorem c4_witness :
    (step (.tick "u1" 1 CaptureOutcome.failure) exampleStreaming).nextPhotoTime
      "u1" = some 30001 ∧
    streamTickFires (step (.tick "u1" 1 CaptureOutcome.failure)
      exampleStreaming) "u1" 30001 = false :=
  ⟨(c4_failure_keeps_backoff exampleStreaming "u1" 1 (by decide)).2.1,
   (c4_failure_keeps_backoff exampleStreaming "u1" 1 (by decide)).2.2 30001
      (by decide)⟩

theorem c5_witness :
    captureAttempts initState
      (.buttonPress "u1" "short" CaptureOutcome.failure) = 1 ∧
    (runFrom (step (.sessionStart "u1" 0) initState)
      [.buttonPress "u1" "long" CaptureOutcome.failure,
        .buttonPress "u1" "long" CaptureOutcome.failure,
        .buttonPress "u1" "short" (.success pdEx 2)]).isStreamingPhotos
      "u1" = some false ∧
    runAttempts (step (.sessionStart "u1" 0) initState)
      [.buttonPress "u1" "long" CaptureOutcome.failure,
        .buttonPress "u1" "long" CaptureOutcome.failure,
        .buttonPress "u1" "short" (.success pdEx 2)] = 1 :=
  ⟨c5_short_press_always_one_capture.1 initState "u1" "short"
      CaptureOutcome.failure (by decide),
   (c5_short_press_always_one_capture.2 initState "u1" 0
      CaptureOutcome.failure CaptureOutcome.failure (.success pdEx 2) "short"
      (by decide)).1,
   (c5_short_press_always_one_capture.2 initState "u1" 0
      CaptureOutcome.failure CaptureOutcome.failure (.success pdEx 2) "short"
      (by decide)).2⟩

theorem c6_witness :
    (step (.buttonPress "u1" "other" CaptureOutcome.failure)
      exampleStreaming).isStreamingPhotos "u1" =
      exampleStreaming.isStreamingPhotos "u1" :=
  (c6_streaming_toggle_amended exampleStreaming "u1" "u1" 0 0 0
    CaptureOutcome.failure "other" "A").2.2.2.1 (by decide)

theorem c8_witness :
    (analysisAt (step (.analysisDone "u1" 0 "A") (run esEx)) "u1" 0 =
        some none ∨
      ∃ r, Event.analysisDone "u1" 0 "A" = Event.analysisDone "u1" 0 r ∧
        analysisAt (step (.analysisDone "u1" 0 "A") (run esEx)) "u1" 0 =
          some (some r)) ∧
    analysisAt (step (.analysisDone "u1" 0 "B") (run esEx2)) "u1" 0 =
      some (some "A") ∧
    ((none : Option String) = none) :=
  ⟨(c8_analysis_written_once esEx (.analysisDone "u1" 0 "A") "u1" 0).2.2
      (by decide),
   (c8_analysis_written_once esEx2 (.analysisDone "u1" 0 "B") "u1" 0).2.1
      "A" (by decide),
   (c8_analysis_written_once [Event.sessionStart "u1" 0]
      (.buttonPress "u1" "short" (.success pdEx 2)) "u1" 0).1
      none (by decide) (by decide)⟩

theorem c9_witness :
    (step (.sessionStop "u1") (run esEx)).photos "u1" =
        (run esEx).photos "u1" ∨
      ∃ p, (step (.sessionStop "u1") (run esEx)).photos "u1" =
        (run esEx).photos "u1" ++ [p] :=
  (c9_photos_append_only (run esEx) (.sessionStop "u1") "u1").1
    (fun _ _ _ h => Event.noConfusion h)

theorem c10_witness :
    (step (.buttonPress "u1" "short" (.success pdEx 5))
        exampleStreaming).isStreamingPhotos =
      exampleStreaming.isStreamingPhotos ∧
    (step (.buttonPress "u1" "short" (.success pdEx 5))
        exampleStreaming).nextPhotoTime =
      exampleStreaming.nextPhotoTime :=
  c10_button_capture_preserves_cooldown_state exampleStreaming "u1" "short"
    (.success pdEx 5) (by decide)

end PricePal
